import Mathlib

/-!
Verification of the entity-alignment and time-series-export logic of the
`aws-sitewise-integration` service.

The Go sources are shallowly embedded:

* Go `string` values become `GoString := List Char` (Go compares strings
  byte-wise; on the ASCII data handled here this coincides with the
  character-wise lexicographic order on `List Char`).
* Go maps (`map[string]T`) become association lists (`GoMap`) updated with
  `mapUpsert`; all map reads used by the embedded code go through `mapFind`.
  Go's randomized iteration order is modeled by the insertion order of the
  association list; every conclusion drawn below about data produced by a
  map iteration is stated order-insensitively (as membership / set equality),
  so no theorem depends on this choice.
* `slices.Sort` becomes `List.insertionSort (· ≤ ·)`: both produce the unique
  ascending reordering of the input, which is all the embedded code observes.
* Errors become `Option GoError` / explicit outcome types; `nil` is `none`.
* Network calls are represented by environments (functions giving each call's
  outcome) and the embedded functions additionally return the trace of calls
  they issued, so that "exactly one call" style properties can be stated.
-/

namespace SiteWise

/-- Go strings, embedded as their character lists so that all string
operations compute inside the kernel. -/
abbrev GoString := List Char

/-- Conversion from Lean string literals to the embedding. -/
def str (s : String) : GoString := s.data

/-- Error values: only their identity matters to the embedded logic, so an
error is represented by its message. -/
abbrev GoError := GoString

/-- Association-list model of a Go `map[string]β`. -/
abbrev GoMap (β : Type) := List (GoString × β)

/-- Map write `m[k] = v`: replace the binding if the key is present,
otherwise append it. -/
def mapUpsert {β : Type} (m : GoMap β) (k : GoString) (v : β) : GoMap β :=
  if m.any (fun p => p.1 == k) then
    m.map (fun p => if p.1 == k then (k, v) else p)
  else
    m ++ [(k, v)]

/-- Map read `v, ok := m[k]`. -/
def mapFind {β : Type} (m : GoMap β) (k : GoString) : Option β :=
  (m.find? (fun p => p.1 == k)).map (fun p => p.2)

/-- Keys of a Go map, in association-list order. -/
def mapKeys {β : Type} (m : GoMap β) : List GoString := m.map (fun p => p.1)

/-- The fixed key separator (`keySeparator = ","` in `entityalign/align.go`). -/
def keySeparator : GoString := str ","

/-- Embedding of `buildKey` (entityalign/align.go): sort the property names
ascending and join them with the separator. Note that `buildKey` itself
performs no filtering of its input. -/
def buildKey (props : List GoString) : GoString :=
  (List.intersperse keySeparator (props.insertionSort (· ≤ ·))).flatten

/-- Embedding of Go `strings.Split(key, ",")` for the one-character separator
actually used: split into the (possibly empty) groups between commas.
`splitOnComma [] = [[]]`, matching Go's `strings.Split("", ",") == [""]`. -/
def splitOnComma : GoString → List GoString
  | [] => [[]]
  | a :: rest =>
    match splitOnComma rest with
    | [] => [[]]
    | g :: gs => if a = ',' then [] :: g :: gs else (a :: g) :: gs

/-- Embedding of `splitKey` (entityalign/align.go). -/
def splitKey (key : GoString) : List GoString := splitOnComma key

/-- Embedding of `isThingContainedInModel` (entityalign/align.go): every
name in the thing key's split form must occur in the model key's split
form. This is the function the specification calls `isSubsetKey`. -/
def isThingContainedInModel (modelKey thingKey : GoString) : Bool :=
  (splitKey thingKey).all (fun prop => (splitKey modelKey).contains prop)

/-- Embedding of `buildModelKeyFromMap` (entityalign/align.go): keep the map
keys whose associated value (the property TYPE) is non-empty, then build the
key. The filter is on the type, not on the name. -/
def buildModelKeyFromMap (propMap : GoMap GoString) : GoString :=
  buildKey ((propMap.filter (fun p => p.2 ≠ [])).map (fun p => p.1))

/-- One property of an Arduino thing (id, name and type tag). -/
structure ArduinoProperty where
  id : GoString
  name : GoString
  ptype : GoString
deriving DecidableEq, Repr

/-- An Arduino thing: id, display name, property list. -/
structure ArduinoThing where
  id : GoString
  name : GoString
  properties : List ArduinoProperty
deriving DecidableEq, Repr

/-- Embedding of `thingPropertiesMap` (entityalign/align.go): the
name-to-type map of a thing's properties (later duplicates overwrite). -/
def thingPropertiesMap (thing : ArduinoThing) : GoMap GoString :=
  thing.properties.foldl (fun m p => mapUpsert m p.name p.ptype) []

/-- Embedding of `buildModelKeyFromThing` (entityalign/align.go). -/
def buildModelKeyFromThing (thing : ArduinoThing) : GoString :=
  buildModelKeyFromMap (thingPropertiesMap thing)

/-- One property of a described SiteWise asset model. `isMeasurement` models
`prop.Type != nil && prop.Type.Measurement != nil`. The AWS `DataType` and
`Unit` fields are not represented: they are produced via type predicates
whose sources are not part of the embedded code, and no verified statement
reads them. -/
structure AssetModelProperty where
  name : GoString
  isMeasurement : Bool
deriving DecidableEq, Repr

/-- A described SiteWise asset model (`DescribeAssetModelOutput`), reduced
to the fields the alignment logic reads. -/
structure DescribeAssetModelOutput where
  assetModelId : GoString
  assetModelProperties : List AssetModelProperty
deriving DecidableEq, Repr

/-- Names collected by `buildModelKeyFromModel` (its `props` local): the
measurement properties of the described model whose names are non-empty. -/
def modelMeasurementNames (descModel : DescribeAssetModelOutput) : List GoString :=
  (descModel.assetModelProperties.filter
    (fun p => p.isMeasurement && p.name ≠ [])).map (fun p => p.name)

/-- Embedding of `buildModelKeyFromModel` (entityalign/align.go): collect the
names of measurement properties with non-empty names; if any remain, build
the key, otherwise report failure. -/
def buildModelKeyFromModel (descModel : DescribeAssetModelOutput) : Option GoString :=
  if (modelMeasurementNames descModel).length > 0 then
    some (buildKey (modelMeasurementNames descModel))
  else
    none

theorem buildKey_perm (l1 l2 : List GoString) (h : l1.Perm l2) : buildKey l1 = buildKey l2 := by
  haveI inst : IsAntisymm GoString (fun a b : GoString => a ≤ b) := ⟨fun a b => le_antisymm⟩
  have hsort : List.insertionSort (fun a b : GoString => a ≤ b) l1 =
      List.insertionSort (fun a b : GoString => a ≤ b) l2 :=
    List.eq_of_perm_of_sorted
      (((l1.perm_insertionSort _).trans h).trans (l2.perm_insertionSort _).symm)
      (List.sorted_insertionSort _ l1)
      (List.sorted_insertionSort _ l2)
  unfold buildKey
  rw [hsort]

/-- C9. `buildKey` is order-independent and deterministic: two inputs holding
the same names in any order produce the same key, and in particular
`buildKey {"b","a"} = buildKey {"a","b"} = "a,b"`. -/
theorem buildKey_order_independent (l1 l2 : List GoString) (h : l1.Perm l2) :
    buildKey l1 = buildKey l2 ∧
    buildKey [str "b", str "a"] = buildKey [str "a", str "b"] ∧
    buildKey [str "b", str "a"] = str "a,b" := by
  refine ⟨buildKey_perm l1 l2 h, ?_, ?_⟩ <;> decide

/-- C9 witness: the order-independence theorem applied to the concrete pair
`{"b","a"}` and `{"a","b"}`. -/
theorem buildKey_order_independent_witness :
    buildKey [str "b", str "a"] = buildKey [str "a", str "b"] :=
  (buildKey_order_independent [str "b", str "a"] [str "a", str "b"]
    (List.Perm.swap (str "a") (str "b") [])).1

/-- C2 counterexample: `buildKey` does NOT filter out empty names. On the
input `{"a","","b"}` it returns `",a,b"`, not `"a,b"` as the claim states. -/
theorem buildKey_blank_name_counterexample :
    buildKey [str "a", str "", str "b"] = str ",a,b" ∧ str ",a,b" ≠ str "a,b" := by
  decide

/-- C2 amended: `buildKey` itself sorts and joins all given names without any
filtering (so `buildKey {"a","","b"} = ",a,b"`); the blank-name filter lives
in its caller `buildModelKeyFromModel`, which drops properties with empty
names (a model with measurement properties named `"a"`, `""`, `"b"` gets key
`"a,b"`), while `buildModelKeyFromMap` drops entries whose TYPE is empty,
not entries whose name is empty. -/
theorem buildKey_filter_location :
    buildKey [str "a", str "", str "b"] = str ",a,b" ∧
    buildModelKeyFromModel
      { assetModelId := str "m1",
        assetModelProperties :=
          [{ name := str "a", isMeasurement := true },
           { name := str "", isMeasurement := true },
           { name := str "b", isMeasurement := true }] } = some (str "a,b") ∧
    buildModelKeyFromMap [(str "a", str "INT"), (str "", str "INT"), (str "b", str "INT")] =
      str ",a,b" ∧
    buildModelKeyFromMap [(str "a", str ""), (str "b", str "INT")] = str "b" := by
  decide

/-- C7. `isThingContainedInModel` (the spec's `isSubsetKey`) returns true
exactly when every name in the thing key's split form appears in the model
key's split form; in particular it accepts `("a,b,c", "a,b")` and rejects
`("a,b", "a,b,c")`. -/
theorem isThingContainedInModel_iff (modelKey thingKey : GoString) :
    (isThingContainedInModel modelKey thingKey = true ↔
      ∀ p ∈ splitKey thingKey, p ∈ splitKey modelKey) ∧
    isThingContainedInModel (str "a,b,c") (str "a,b") = true ∧
    isThingContainedInModel (str "a,b") (str "a,b,c") = false := by
  refine ⟨?_, by decide, by decide⟩
  unfold isThingContainedInModel
  rw [List.all_eq_true]
  constructor
  · intro h p hp
    have := h p hp
    simpa using this
  · intro h p hp
    simpa using h p hp

/-- C7 witness: the characterization applied to the concrete pair
`("a,b,c", "a,b")`. -/
theorem isThingContainedInModel_iff_witness :
    isThingContainedInModel (str "a,b,c") (str "a,b") = true :=
  ((isThingContainedInModel_iff (str "a,b,c") (str "a,b")).1).2
    (by decide)

/-- An asset discovered during catalog discovery (`assetDefintion` in
entityalign/align.go; the source's spelling is kept). -/
structure assetDefintion where
  assetId : GoString
  modelId : GoString
  thingId : GoString
deriving DecidableEq, Repr

/-- Record of one `UpdateAssetModelProperties` client call: the model it
updates, the existing property list carried over unchanged into the update
input, the names of the properties appended to it, and whether the
underlying `UpdateAssetModel` AWS request was issued (the `modified` flag:
at least one property was appended). -/
structure UpdateModelCall where
  modelId : GoString
  carriedOverProperties : List AssetModelProperty
  addedNames : List GoString
  svcUpdateIssued : Bool
deriving DecidableEq, Repr

/-- Embedding of `UpdateAssetModelProperties` (sitewiseclient/client.go):
copy the described model's fields into an update input, then append one new
measurement property for every thing property whose name is absent from the
model's property-name map; the AWS update request is issued only if at
least one property was appended. The call is modeled as succeeding; its
result is the record of what it submitted. -/
def UpdateAssetModelProperties (assetModel : DescribeAssetModelOutput)
    (thingProperties : GoMap GoString) : UpdateModelCall :=
  let modelNames := assetModel.assetModelProperties.map (fun p => p.name)
  let added := (thingProperties.filter (fun tp => !(modelNames.contains tp.1))).map
    (fun tp => tp.1)
  { modelId := assetModel.assetModelId,
    carriedOverProperties := assetModel.assetModelProperties,
    addedNames := added,
    svcUpdateIssued := !added.isEmpty }

/-- Embedding of the per-asset body of `alignAlreadyCreatedModels`
(entityalign/align.go): resolve the asset's thing and model description,
compare keys, and either skip, or re-index only, or call
`UpdateAssetModelProperties` and re-index. Returns the updated `models`
index together with the list of update calls issued for this asset. The
model-activation poll after a successful update is not represented; no
claim reads it. -/
def alignAlreadyCreatedModelsStep (thingsMap : GoMap ArduinoThing)
    (modelDefinitions : GoMap DescribeAssetModelOutput)
    (models : GoMap GoString) (asset : assetDefintion) :
    GoMap GoString × List UpdateModelCall :=
  match mapFind thingsMap asset.thingId with
  | none => (models, [])
  | some thing =>
    let thingKey := buildModelKeyFromThing thing
    match mapFind modelDefinitions asset.modelId with
    | none => (models, [])
    | some descModel =>
      if descModel.assetModelProperties.length > 0 then
        match buildModelKeyFromModel descModel with
        | none => (models, [])
        | some modelKey =>
          if modelKey ≠ thingKey ∧ thingKey ≠ [] ∧ modelKey ≠ [] then
            if isThingContainedInModel modelKey thingKey then
              (mapUpsert models thingKey descModel.assetModelId, [])
            else
              (mapUpsert models thingKey descModel.assetModelId,
                [UpdateAssetModelProperties descModel (thingPropertiesMap thing)])
          else
            (models, [])
      else
        (models, [])

/-- Embedding of the `alignAlreadyCreatedModels` pass: fold the per-asset
step over the discovered assets, accumulating the issued update calls. -/
def alignAlreadyCreatedModels (thingsMap : GoMap ArduinoThing)
    (modelDefinitions : GoMap DescribeAssetModelOutput)
    (models : GoMap GoString) (assets : List assetDefintion) :
    GoMap GoString × List UpdateModelCall :=
  assets.foldl (fun acc asset =>
    let step := alignAlreadyCreatedModelsStep thingsMap modelDefinitions acc.1 asset
    (step.1, acc.2 ++ step.2)) (models, [])

theorem mapFind_cons_pos {β : Type} (q : GoString × β) (qs : GoMap β) (k : GoString)
    (h : (q.1 == k) = true) : mapFind (q :: qs) k = some q.2 := by
  unfold mapFind
  rw [@List.find?_cons_of_pos _ (fun p => p.1 == k) q qs h]
  rfl

theorem mapFind_cons_neg {β : Type} (q : GoString × β) (qs : GoMap β) (k : GoString)
    (h : (q.1 == k) = false) : mapFind (q :: qs) k = mapFind qs k := by
  unfold mapFind
  rw [@List.find?_cons_of_neg _ (fun p => p.1 == k) q qs (by simp [h])]

theorem mapFind_upsert_self {β : Type} (m : GoMap β) (k : GoString) (v : β) :
    mapFind (mapUpsert m k v) k = some v := by
  induction m with
  | nil =>
    unfold mapUpsert
    simp only [List.any_nil, if_neg Bool.false_ne_true, List.nil_append]
    exact mapFind_cons_pos (k, v) [] k (by simp)
  | cons q qs ih =>
    by_cases hq : (q.1 == k) = true
    · have hany : ((q :: qs).any fun p => p.1 == k) = true := by simp [List.any_cons, hq]
      unfold mapUpsert
      rw [if_pos hany, List.map_cons, if_pos hq]
      exact mapFind_cons_pos (k, v) _ k (by simp)
    · have hnq : (q.1 == k) = false := by simpa using hq
      by_cases hany : (qs.any fun p => p.1 == k) = true
      · have hall : ((q :: qs).any fun p => p.1 == k) = true := by
          simp [List.any_cons, hany]
        have ihu : mapFind (qs.map fun p => if (p.1 == k) = true then (k, v) else p) k = some v := by
          unfold mapUpsert at ih
          rwa [if_pos hany] at ih
        unfold mapUpsert
        rw [if_pos hall, List.map_cons, if_neg hq]
        rw [mapFind_cons_neg q _ k hnq]
        exact ihu
      · have hall : ((q :: qs).any fun p => p.1 == k) = false := by
          simp only [List.any_cons, Bool.or_eq_false_iff]
          exact ⟨hnq, eq_false_of_ne_true hany⟩
        have ihu : mapFind (qs ++ [(k, v)]) k = some v := by
          unfold mapUpsert at ih
          rwa [if_neg (by simp [hany])] at ih
        unfold mapUpsert
        rw [if_neg (by simp [hall]), List.cons_append]
        rw [mapFind_cons_neg q _ k hnq]
        exact ihu

theorem mapKeys_upsert {β : Type} (m : GoMap β) (k : GoString) (v : β) :
    mapKeys (mapUpsert m k v) =
      if m.any (fun p => p.1 == k) then mapKeys m else mapKeys m ++ [k] := by
  unfold mapUpsert mapKeys
  split
  · rw [List.map_map]
    apply List.map_congr_left
    intro p _
    by_cases h : (p.1 == k) = true
    · simp only [Function.comp_apply, if_pos h]
      exact (eq_of_beq h).symm
    · simp only [Function.comp_apply, if_neg h]
  · simp

theorem mapKeys_upsert_nodup {β : Type} (m : GoMap β) (k : GoString) (v : β)
    (h : (mapKeys m).Nodup) : (mapKeys (mapUpsert m k v)).Nodup := by
  rw [mapKeys_upsert]
  split
  · exact h
  · next hany =>
    have hk : k ∉ mapKeys m := by
      intro hmem
      rw [mapKeys, List.mem_map] at hmem
      obtain ⟨p, hp, hpk⟩ := hmem
      have : (m.any fun p => p.1 == k) = true := by
        rw [List.any_eq_true]
        exact ⟨p, hp, by simp [hpk]⟩
      simp [this] at hany
    simp only [List.nodup_append, List.nodup_cons, List.not_mem_nil, not_false_eq_true,
      List.nodup_nil, and_true, true_and]
    constructor
    · exact h
    · intro x hx hcontra
      rw [List.mem_singleton] at hcontra
      exact hk (hcontra ▸ hx)

theorem thingPropertiesMap_keys_nodup (thing : ArduinoThing) :
    (mapKeys (thingPropertiesMap thing)).Nodup := by
  unfold thingPropertiesMap
  have aux : ∀ (props : List ArduinoProperty) (m : GoMap GoString), (mapKeys m).Nodup →
      (mapKeys (props.foldl (fun acc p => mapUpsert acc p.name p.ptype) m)).Nodup := by
    intro props
    induction props with
    | nil => intro m hm; exact hm
    | cons p ps ih =>
      intro m hm
      exact ih _ (mapKeys_upsert_nodup m p.name p.ptype hm)
  exact aux thing.properties [] (by simp [mapKeys])

theorem buildKey_ne_nil (l : List GoString) (hne : l ≠ []) (hall : ∀ n ∈ l, n ≠ []) :
    buildKey l ≠ [] := by
  unfold buildKey
  have hperm := l.perm_insertionSort (fun a b : GoString => a ≤ b)
  rcases hs : List.insertionSort (fun a b : GoString => a ≤ b) l with _ | ⟨x, rest⟩
  · rw [hs] at hperm
    exact absurd (List.Perm.eq_nil hperm.symm).symm (fun hcontra => hne hcontra.symm)
  · rw [hs] at hperm
    have hx : x ∈ l := hperm.mem_iff.mp (by simp)
    have hxne := hall x hx
    cases rest with
    | nil => simpa [List.intersperse] using hxne
    | cons y ys =>
      simp only [List.intersperse, List.flatten]
      intro hcontra
      rcases List.append_eq_nil.mp hcontra with ⟨h1, _⟩
      exact hxne h1

theorem buildModelKeyFromModel_ne_nil (descModel : DescribeAssetModelOutput)
    (modelKey : GoString) (h : buildModelKeyFromModel descModel = some modelKey) :
    modelKey ≠ [] := by
  unfold buildModelKeyFromModel at h
  split at h
  · next hlen =>
    have hkey : modelKey = buildKey (modelMeasurementNames descModel) := by
      injection h with h2
      exact h2.symm
    rw [hkey]
    apply buildKey_ne_nil
    · intro hnil
      rw [hnil] at hlen
      simp at hlen
    · intro n hn
      rw [modelMeasurementNames, List.mem_map] at hn
      obtain ⟨p, hp, hpn⟩ := hn
      rw [List.mem_filter] at hp
      have := hp.2
      simp only [Bool.and_eq_true, decide_eq_true_eq] at this
      exact hpn ▸ this.2
  · cases h
theorem buildModelKeyFromModel_props_pos (descModel : DescribeAssetModelOutput)
    (modelKey : GoString) (h : buildModelKeyFromModel descModel = some modelKey) :
    descModel.assetModelProperties.length > 0 := by
  unfold buildModelKeyFromModel at h
  split at h
  · next hlen =>
    unfold modelMeasurementNames at hlen
    rw [List.length_map] at hlen
    calc 0 < (descModel.assetModelProperties.filter
          (fun p => p.isMeasurement && p.name ≠ [])).length := hlen
      _ ≤ descModel.assetModelProperties.length := (List.filter_sublist _).length_le
  · cases h

/-- C1 (amended). Drift reconciliation for a discovered asset whose resolvable
thing has a NON-EMPTY schema key differing from the bound model's key: if the
model's key already covers every property name of the thing's key, no
update-model call is issued; otherwise exactly one `UpdateAssetModelProperties`
call is made, and that call appends precisely the thing's property names
absent from the model (no existing model property is removed or modified:
they are all carried over unchanged), the added names are duplicate-free, and
the model is re-indexed under the thing's key. (The original claim also
demanded an update when the thing's key is EMPTY and differs from the model's
key; the code skips that case, see the counterexample.) -/
theorem alignAlreadyCreatedModels_drift
    (thingsMap : GoMap ArduinoThing) (modelDefinitions : GoMap DescribeAssetModelOutput)
    (models : GoMap GoString) (asset : assetDefintion)
    (thing : ArduinoThing) (descModel : DescribeAssetModelOutput) (modelKey : GoString)
    (h1 : mapFind thingsMap asset.thingId = some thing)
    (h2 : mapFind modelDefinitions asset.modelId = some descModel)
    (h3 : buildModelKeyFromModel descModel = some modelKey)
    (h4 : modelKey ≠ buildModelKeyFromThing thing)
    (h5 : buildModelKeyFromThing thing ≠ []) :
    (isThingContainedInModel modelKey (buildModelKeyFromThing thing) = true →
      (alignAlreadyCreatedModelsStep thingsMap modelDefinitions models asset).2 = []) ∧
    (isThingContainedInModel modelKey (buildModelKeyFromThing thing) = false →
      (alignAlreadyCreatedModelsStep thingsMap modelDefinitions models asset).2 =
        [UpdateAssetModelProperties descModel (thingPropertiesMap thing)] ∧
      (∀ n, n ∈ (UpdateAssetModelProperties descModel (thingPropertiesMap thing)).addedNames ↔
        (n ∈ mapKeys (thingPropertiesMap thing) ∧
          n ∉ descModel.assetModelProperties.map (fun p => p.name))) ∧
      (UpdateAssetModelProperties descModel (thingPropertiesMap thing)).addedNames.Nodup ∧
      (UpdateAssetModelProperties descModel (thingPropertiesMap thing)).carriedOverProperties =
        descModel.assetModelProperties ∧
      mapFind (alignAlreadyCreatedModelsStep thingsMap modelDefinitions models asset).1
        (buildModelKeyFromThing thing) = some descModel.assetModelId) := by
  have hpos := buildModelKeyFromModel_props_pos descModel modelKey h3
  have hmk := buildModelKeyFromModel_ne_nil descModel modelKey h3
  have hadded : (UpdateAssetModelProperties descModel (thingPropertiesMap thing)).addedNames =
      ((thingPropertiesMap thing).filter (fun tp =>
        !((descModel.assetModelProperties.map (fun p => p.name)).contains tp.1))).map
        (fun tp => tp.1) := rfl
  have hstep : alignAlreadyCreatedModelsStep thingsMap modelDefinitions models asset =
      (if isThingContainedInModel modelKey (buildModelKeyFromThing thing) then
        (mapUpsert models (buildModelKeyFromThing thing) descModel.assetModelId, [])
      else
        (mapUpsert models (buildModelKeyFromThing thing) descModel.assetModelId,
          [UpdateAssetModelProperties descModel (thingPropertiesMap thing)])) := by
    unfold alignAlreadyCreatedModelsStep
    rw [h1]
    dsimp only
    rw [h2]
    dsimp only
    rw [h3]
    dsimp only
    rw [if_pos hpos, if_pos ⟨h4, h5, hmk⟩]
  constructor
  · intro hcont
    rw [hstep, if_pos hcont]
  · intro hncont
    have hcont2 : ¬ isThingContainedInModel modelKey (buildModelKeyFromThing thing) = true := by
      rw [hncont]; exact Bool.false_ne_true
    refine ⟨by rw [hstep, if_neg hcont2], ?_, ?_, rfl, ?_⟩
    · intro n
      rw [hadded, mapKeys]
      simp only [List.mem_map, List.mem_filter, Bool.not_eq_true', List.contains_eq_any_beq,
        List.any_eq_false]
      constructor
      · rintro ⟨tp, ⟨htp, hnc⟩, rfl⟩
        exact ⟨⟨tp, htp, rfl⟩, fun hmem => (hnc tp.1 hmem) (by simp)⟩
      · rintro ⟨⟨tp, htp, rfl⟩, hnm⟩
        refine ⟨tp, ⟨htp, ?_⟩, rfl⟩
        intro x hx hbeq
        have hxeq : tp.1 = x := eq_of_beq hbeq
        exact hnm (by rw [hxeq]; exact hx)
    · have hsub : (UpdateAssetModelProperties descModel (thingPropertiesMap thing)).addedNames.Sublist
          (mapKeys (thingPropertiesMap thing)) := by
        rw [hadded, mapKeys]
        exact (List.filter_sublist (thingPropertiesMap thing)).map
          (fun tp : GoString × GoString => tp.1)
      exact (thingPropertiesMap_keys_nodup thing).sublist hsub
    · rw [hstep, if_neg hcont2]
      exact mapFind_upsert_self models (buildModelKeyFromThing thing) descModel.assetModelId

/-- Thing used in the concrete drift scenario: properties temperature and
pressure. -/
def driftThing : ArduinoThing :=
  { id := str "t1", name := str "thing1",
    properties := [{ id := str "p1", name := str "temperature", ptype := str "INT" },
                   { id := str "p2", name := str "pressure", ptype := str "INT" }] }

/-- Model used in the concrete drift scenario: only temperature. -/
def driftModel : DescribeAssetModelOutput :=
  { assetModelId := str "m1",
    assetModelProperties := [{ name := str "temperature", isMeasurement := true }] }

/-- Asset binding the drift-scenario thing to the drift-scenario model. -/
def driftAsset : assetDefintion :=
  { assetId := str "a1", modelId := str "m1", thingId := str "t1" }

/-- C1 witness: the drift theorem applied to the spec's concrete scenario
(thing {temperature, pressure}, model {temperature}): exactly one update call
is issued and the model is re-indexed under "pressure,temperature". -/
theorem alignAlreadyCreatedModels_drift_witness :
    (alignAlreadyCreatedModelsStep [(str "t1", driftThing)] [(str "m1", driftModel)] []
        driftAsset).2 =
      [UpdateAssetModelProperties driftModel (thingPropertiesMap driftThing)] ∧
    mapFind (alignAlreadyCreatedModelsStep [(str "t1", driftThing)] [(str "m1", driftModel)] []
        driftAsset).1 (buildModelKeyFromThing driftThing) = some (str "m1") := by
  have h := (alignAlreadyCreatedModels_drift [(str "t1", driftThing)] [(str "m1", driftModel)]
    [] driftAsset driftThing driftModel (str "temperature")
    (by decide) (by decide) (by decide) (by decide) (by decide)).2 (by decide)
  exact ⟨h.1, h.2.2.2.2⟩

/-- Thing with no properties: its schema key is empty. -/
def emptyKeyThing : ArduinoThing :=
  { id := str "t2", name := str "thing2", properties := [] }

/-- Model with one measurement property "a". -/
def modelWithA : DescribeAssetModelOutput :=
  { assetModelId := str "m2",
    assetModelProperties := [{ name := str "a", isMeasurement := true }] }

/-- Asset binding the propertyless thing to the model keyed "a". -/
def emptyKeyAsset : assetDefintion :=
  { assetId := str "a2", modelId := str "m2", thingId := str "t2" }

/-- C1 counterexample. Take an asset whose resolvable thing has NO properties
(its schema key is the empty string) bound to a model whose key is "a": the
keys differ and the model's key does not contain the thing key's (split-form)
names, so the claim requires exactly one update-model call; but
`alignAlreadyCreatedModels` (which additionally requires `thingKey != ""`)
issues NO update call and leaves the index unchanged. -/
theorem alignAlreadyCreatedModels_drift_counterexample :
    mapFind [(str "t2", emptyKeyThing)] emptyKeyAsset.thingId = some emptyKeyThing ∧
    mapFind [(str "m2", modelWithA)] emptyKeyAsset.modelId = some modelWithA ∧
    buildModelKeyFromModel modelWithA = some (str "a") ∧
    str "a" ≠ buildModelKeyFromThing emptyKeyThing ∧
    isThingContainedInModel (str "a") (buildModelKeyFromThing emptyKeyThing) = false ∧
    (alignAlreadyCreatedModels [(str "t2", emptyKeyThing)] [(str "m2", modelWithA)] []
      [emptyKeyAsset]).2 = [] := by
  decide

/-- Decimal rendering of a natural number (the `%d` of `fmt.Sprintf`),
computed with an explicit fuel so that it reduces in the kernel; `n + 1`
units of fuel always suffice. -/
def natToDecAux : Nat → Nat → GoString
  | 0, _ => []
  | fuel + 1, n =>
    if n < 10 then [Char.ofNat (48 + n)]
    else natToDecAux fuel (n / 10) ++ [Char.ofNat (48 + n % 10)]

/-- Decimal rendering entry point. -/
def natToDec (n : Nat) : GoString := natToDecAux (n + 1) n

/-- Embedding of `composeModelName` (entityalign/align.go). -/
def composeModelName (thingName : GoString) (increment : Nat) : GoString :=
  if increment == 0 then
    str "Thing Model from (" ++ thingName ++ str ")"
  else
    str "Thing Model from (" ++ thingName ++ str ") - " ++ natToDec increment

/-- Outcome of one `CreateAssetModel` call: success, a
`ResourceAlreadyExistsException` name collision, or any other error. -/
inductive CreateModelOutcome where
  | success (modelId : GoString)
  | conflict
  | failure (e : GoError)

/-- How the model-creation retry loop of `alignModels` ends: a model was
created; a non-collision error was returned to the caller; or all 100
attempts collided, after which the code dereferences the nil `createdModel`
pointer (`*createdModel.AssetModelId`) and panics. -/
inductive ModelCreateExit where
  | created (modelId : GoString)
  | fatal (e : GoError)
  | nilPanic
deriving DecidableEq, Repr

/-- Embedding of the `for i := 0; i < 100; i++` creation loop of `alignModels`
(entityalign/align.go), recursing on the remaining attempt budget: attempt
`i` creates under `composeModelName(thingName, i)`; a conflict retries with
`i+1`; any other error exits the whole call with that error; success exits
the loop. When the budget is exhausted with every attempt conflicting, the
code after the loop dereferences the nil `createdModel`, modeled as
`nilPanic`. Returns the attempted names and the exit. -/
def createModelLoop (thingName : GoString) (outcome : Nat → CreateModelOutcome) :
    Nat → Nat → List GoString × ModelCreateExit
  | _, 0 => ([], .nilPanic)
  | i, remaining + 1 =>
    let name := composeModelName thingName i
    match outcome i with
    | .success modelId => ([name], .created modelId)
    | .failure e => ([name], .fatal e)
    | .conflict =>
      let rest := createModelLoop thingName outcome (i + 1) remaining
      (name :: rest.1, rest.2)

/-- Embedding of the model-creation phase of `alignModels` for one thing with
no matching model: run the retry loop with the fixed 100-attempt budget. -/
def alignModelsCreate (thingName : GoString) (outcome : Nat → CreateModelOutcome) :
    List GoString × ModelCreateExit :=
  createModelLoop thingName outcome 0 100

/-- C8 (code bug shown at the failing input). With every one of the 100
creation attempts answering with a name collision, `alignModelsCreate`: tries
`"Thing Model from (thing1)"` first, then the incrementally suffixed names
(e.g. `"Thing Model from (thing1) - 1"`, ..., `"- 99"`), exactly 100 attempts
in total — but then exits by dereferencing the nil `createdModel` pointer
(a Go runtime panic), instead of surfacing an error value to the caller as
the claim states; a non-collision failure on the first attempt, by contrast,
aborts immediately with that error after a single attempt. -/
theorem alignModelsCreate_conflict_exhaustion :
    (alignModelsCreate (str "thing1") (fun _ => CreateModelOutcome.conflict)).2 =
      ModelCreateExit.nilPanic ∧
    (alignModelsCreate (str "thing1") (fun _ => CreateModelOutcome.conflict)).1.length = 100 ∧
    (alignModelsCreate (str "thing1") (fun _ => CreateModelOutcome.conflict)).1.head? =
      some (str "Thing Model from (thing1)") ∧
    (alignModelsCreate (str "thing1") (fun _ => CreateModelOutcome.conflict)).1.getLast? =
      some (str "Thing Model from (thing1) - 99") ∧
    (alignModelsCreate (str "thing1") (fun _ => CreateModelOutcome.conflict)).1 =
      (List.range 100).map (composeModelName (str "thing1")) ∧
    alignModelsCreate (str "thing1") (fun _ => CreateModelOutcome.failure (str "boom")) =
      ([str "Thing Model from (thing1)"], ModelCreateExit.fatal (str "boom")) := by
  decide

/-- One chunk of a partitioned response (`chunk` / `chunkChars` in
tsalign.go): parallel timestamp and value slices. The Go pair of types is
embedded once, polymorphically in the value type, because no embedded code
inspects the values. -/
structure chunk (α : Type) where
  ts : List Int
  values : List α
deriving DecidableEq, Repr

/-- Embedding of `partitionResults` / `partitionSampledResults` (tsalign.go):
walk the parallel arrays ten entries at a time (`for i := 0; i < len(Times);
i += 10`); each iteration takes `Times[i:end]` and `Values[i:end]` with
`end = min(i+10, len(Times))`. `Times` entries are their Unix seconds (the
only operation applied to them). The ten-element pattern IS the `i += 10`
stride; the final shorter slice is the last loop iteration. -/
def partitionResults {α : Type} : List Int → List α → List (chunk α)
  | [], _ => []
  | t1 :: t2 :: t3 :: t4 :: t5 :: t6 :: t7 :: t8 :: t9 :: t10 :: rest, vs =>
    ⟨[t1, t2, t3, t4, t5, t6, t7, t8, t9, t10], vs.take 10⟩ ::
      partitionResults rest (vs.drop 10)
  | ts, vs => [⟨ts, vs.take ts.length⟩]

theorem length_le_nine_of_no_ten {γ : Type} (ts : List γ)
    (h : ∀ (t1 t2 t3 t4 t5 t6 t7 t8 t9 t10 : γ) (rest : List γ),
      ts = t1 :: t2 :: t3 :: t4 :: t5 :: t6 :: t7 :: t8 :: t9 :: t10 :: rest → False) :
    ts.length ≤ 9 := by
  match ts with
  | [] => simp
  | [t1] => simp
  | [t1, t2] => simp
  | [t1, t2, t3] => simp
  | [t1, t2, t3, t4] => simp
  | [t1, t2, t3, t4, t5] => simp
  | [t1, t2, t3, t4, t5, t6] => simp
  | [t1, t2, t3, t4, t5, t6, t7] => simp
  | [t1, t2, t3, t4, t5, t6, t7, t8] => simp
  | [t1, t2, t3, t4, t5, t6, t7, t8, t9] => simp
  | t1 :: t2 :: t3 :: t4 :: t5 :: t6 :: t7 :: t8 :: t9 :: t10 :: rest =>
    exact absurd rfl (h t1 t2 t3 t4 t5 t6 t7 t8 t9 t10 rest)

theorem partitionResults_flatten_ts {α : Type} (ts : List Int) (vs : List α)
    (h : ts.length ≤ vs.length) :
    ((partitionResults ts vs).map (fun c => c.ts)).flatten = ts := by
  induction ts, vs using partitionResults.induct with
  | case1 vs => rfl
  | case2 t1 t2 t3 t4 t5 t6 t7 t8 t9 t10 rest vs ih =>
    simp only [partitionResults, List.map_cons, List.flatten_cons]
    have h2 : rest.length ≤ (vs.drop 10).length := by
      rw [List.length_drop]
      simp only [List.length_cons] at h
      omega
    rw [ih h2]
    rfl
  | case3 ts vs h1 h2 =>
    simp [partitionResults]

theorem partitionResults_flatten_values {α : Type} (ts : List Int) (vs : List α)
    (h : ts.length = vs.length) :
    ((partitionResults ts vs).map (fun c => c.values)).flatten = vs := by
  induction ts, vs using partitionResults.induct with
  | case1 vs =>
    have hnil : vs = [] := by
      cases vs with
      | nil => rfl
      | cons a as => simp at h
    rw [hnil]
    rfl
  | case2 t1 t2 t3 t4 t5 t6 t7 t8 t9 t10 rest vs ih =>
    simp only [partitionResults, List.map_cons, List.flatten_cons]
    have h2 : rest.length = (vs.drop 10).length := by
      rw [List.length_drop]
      simp only [List.length_cons] at h
      omega
    rw [ih h2, List.take_append_drop]
  | case3 ts vs h1 h2 =>
    simp only [partitionResults, List.map_cons, List.map_nil, List.flatten_cons,
      List.flatten_nil, List.append_nil]
    rw [h]
    exact List.take_length vs

theorem partitionResults_length {α : Type} (ts : List Int) (vs : List α) :
    (partitionResults ts vs).length = (ts.length + 9) / 10 := by
  induction ts, vs using partitionResults.induct with
  | case1 vs => rfl
  | case2 t1 t2 t3 t4 t5 t6 t7 t8 t9 t10 rest vs ih =>
    simp only [partitionResults]
    simp only [List.length_cons]
    rw [ih]
    omega
  | case3 ts vs h1 h2 =>
    simp only [partitionResults, List.length_cons, List.length_nil]
    have hle := length_le_nine_of_no_ten ts h2
    have hge : 1 ≤ ts.length := by
      cases ts with
      | nil => exact absurd rfl h1
      | cons a as => simp
    omega

theorem partitionResults_chunk_sizes {α : Type} (ts : List Int) (vs : List α)
    (h : ts.length = vs.length) :
    ∀ c ∈ partitionResults ts vs, c.ts.length ≤ 10 ∧ c.values.length = c.ts.length := by
  induction ts, vs using partitionResults.induct with
  | case1 vs => intro c hc; cases hc
  | case2 t1 t2 t3 t4 t5 t6 t7 t8 t9 t10 rest vs ih =>
    intro c hc
    simp only [partitionResults, List.mem_cons] at hc
    rcases hc with hc | hc
    · subst hc
      refine ⟨by simp, ?_⟩
      show (vs.take 10).length = ([t1, t2, t3, t4, t5, t6, t7, t8, t9, t10] : List Int).length
      simp only [List.length_take, List.length_cons, List.length_nil]
      simp only [List.length_cons] at h
      omega
    · have h2 : rest.length = (vs.drop 10).length := by
        rw [List.length_drop]
        simp only [List.length_cons] at h
        omega
      exact ih h2 c hc
  | case3 ts vs h1 h2 =>
    intro c hc
    simp only [partitionResults, List.mem_singleton] at hc
    subst hc
    have hle := length_le_nine_of_no_ten ts h2
    constructor
    · simpa using by omega
    · simp only [List.length_take]
      omega

theorem partitionResults_dropLast_full {α : Type} (ts : List Int) (vs : List α) :
    ∀ c ∈ (partitionResults ts vs).dropLast, c.ts.length = 10 := by
  induction ts, vs using partitionResults.induct with
  | case1 vs => intro c hc; cases hc
  | case2 t1 t2 t3 t4 t5 t6 t7 t8 t9 t10 rest vs ih =>
    intro c hc
    simp only [partitionResults] at hc
    rcases hrest : partitionResults rest (vs.drop 10) with _ | ⟨r, rs⟩
    · rw [hrest] at hc
      cases hc
    · rw [hrest, List.dropLast_cons_of_ne_nil (by simp)] at hc
      rcases List.mem_cons.mp hc with hc2 | hc2
      · subst hc2; rfl
      · exact ih c (by rw [hrest]; exact hc2)
  | case3 ts vs h1 h2 =>
    intro c hc
    simp only [partitionResults, List.dropLast_single] at hc
    cases hc

/-- Embedding of `computeTimeAlignment` (tsalign.go). `now` is the current
time in whole seconds on Go's absolute timeline (`time.Truncate` rounds down
against the zero time); only second-level arithmetic occurs. Resolutions of
at most 60s are forced to 300s; `to` is `now` truncated down to a multiple
of the (possibly forced) resolution, shifted back a further 300s when the
resolution is at most 900s; `from` is `to` minus the window. Returns
`(from, to)`. -/
def computeTimeAlignment (now resolutionSeconds timeWindowInMinutes : Int) : Int × Int :=
  let res := if resolutionSeconds ≤ 60 then 300 else resolutionSeconds
  let truncated := now - now % res
  let toTime := if res ≤ 900 then truncated - 300 else truncated
  (toTime - timeWindowInMinutes * 60, toTime)

/-- Embedding of Go `strings.Replace(s, pat, "", 1)`: delete the first
occurrence of `pat` in `s`. -/
def stripFirst (pat : GoString) : GoString → GoString
  | [] => []
  | c :: rest =>
    if pat.isPrefixOf (c :: rest) then (c :: rest).drop pat.length
    else c :: stripFirst pat rest

/-- Per-property series response (`ArduinoSeriesResponse` /
`ArduinoSeriesSampledResponse`): query tag, reported sample count, parallel
timestamp (already in Unix seconds) and value arrays. Polymorphic in the
value type (float64 on the aggregated path, `any` on the sampled path);
no embedded code inspects the values. -/
structure SeriesResponse (α : Type) where
  query : GoString
  countValues : Int
  times : List Int
  values : List α
deriving DecidableEq

/-- The fixed fetch retry budget (`retryCount = 5` in tsalign.go). -/
def retryCount : Nat := 5

/-- Outcome of one `GetTimeSeriesByThing` / `GetTimeSeriesSampling` call:
the batched responses, the rate-limit retry flag, and the error. -/
structure FetchAttempt (α : Type) where
  responses : List (SeriesResponse α)
  retry : Bool
  err : Option GoError
deriving DecidableEq

/-- Embedding of the fetch retry loop (`for i := 0; i < retryCount; i++`)
of `populateTSDataIntoSiteWise` / `populateCharTSDataIntoSiteWise`: make
attempt `i`; stop as soon as `retry` is false; otherwise sleep (not modeled)
and retry while budget remains. When the budget runs out, the loop variables
keep the last attempt's values. Returns the number of calls made and the
final attempt. -/
def fetchLoopGo {α : Type} (attempts : Nat → FetchAttempt α) : Nat → Nat → Nat × FetchAttempt α
  | i, 0 => (i, attempts (i - 1))
  | i, remaining + 1 =>
    let a := attempts i
    if a.retry then fetchLoopGo attempts (i + 1) remaining
    else (i + 1, a)

/-- Record of one chunk push (`PopulateTimeSeriesByAlias` /
`PopulateSampledSamplesTimeSeriesByAlias` call) and its outcome. -/
structure PushCall (α : Type) where
  propertyAlias : GoString
  ts : List Int
  values : List α
  outcome : Option GoError
deriving DecidableEq

/-- Result of the inner chunk-push loop: the calls made, `some r` when the
surrounding function returned early with value `r`, and the next global push
index. -/
structure ChunkLoopOut (α : Type) where
  pushes : List (PushCall α)
  earlyReturn : Option (Option GoError)
  nextIdx : Nat
deriving DecidableEq

/-- Embedding of the `for _, c := range chunks` push loop: push each chunk;
on a non-nil push error `erri` the Go code executes `return err` — returning
the enclosing fetch-error variable `errVar`, NOT `erri`. `pushOutcome k` is
the outcome of the `k`-th push call of the enclosing function. -/
def pushChunksLoop {α : Type} (pushOutcome : Nat → Option GoError) (errVar : Option GoError)
    (aliasName : GoString) : List (chunk α) → Nat → ChunkLoopOut α
  | [], k => ⟨[], none, k⟩
  | c :: cs, k =>
    match pushOutcome k with
    | some e => ⟨[⟨aliasName, c.ts, c.values, some e⟩], some errVar, k + 1⟩
    | none =>
      let rest := pushChunksLoop pushOutcome errVar aliasName cs (k + 1)
      ⟨⟨aliasName, c.ts, c.values, none⟩ :: rest.pushes, rest.earlyReturn, rest.nextIdx⟩

/-- Result of the response loop: pushes made, the function's return value,
and the final push index. -/
structure RespLoopOut (α : Type) where
  pushes : List (PushCall α)
  ret : Option GoError
  nextIdx : Nat
deriving DecidableEq

/-- Embedding of the `for _, response := range batched.Responses` loop shared
by `populateTSDataIntoSiteWise` and `populateCharTSDataIntoSiteWise`
(tsalign.go): skip responses with zero `CountValues`; strip the
`"property."` prefix from the query to get the property id; skip unmapped
properties and empty aliases; partition the remaining response and push its
chunks; a push error returns early with the (nil) fetch-error variable;
falling off the loop returns nil. -/
def responsesLoop {α : Type} (pushOutcome : Nat → Option GoError) (errVar : Option GoError)
    (propertiesToImport : List GoString) (aliases : GoMap GoString) :
    List (SeriesResponse α) → Nat → RespLoopOut α
  | [], k => ⟨[], none, k⟩
  | r :: rs, k =>
    if r.countValues == 0 then
      responsesLoop pushOutcome errVar propertiesToImport aliases rs k
    else
      let propertyID := stripFirst (str "property.") r.query
      if !(propertiesToImport.contains propertyID) then
        responsesLoop pushOutcome errVar propertiesToImport aliases rs k
      else
        let aliasName := (mapFind aliases propertyID).getD []
        if aliasName = [] then
          responsesLoop pushOutcome errVar propertiesToImport aliases rs k
        else
          let pres := pushChunksLoop pushOutcome errVar aliasName
            (partitionResults r.times r.values) k
          match pres.earlyReturn with
          | some rv => ⟨pres.pushes, rv, pres.nextIdx⟩
          | none =>
            let rest := responsesLoop pushOutcome errVar propertiesToImport aliases rs pres.nextIdx
            ⟨pres.pushes ++ rest.pushes, rest.ret, rest.nextIdx⟩

/-- Result of one populate call: the fetch calls issued (`δ` describes one
fetch call's parameters), the pushes issued, and the returned error. -/
structure PopulateResult (δ α : Type) where
  fetchCalls : List δ
  pushes : List (PushCall α)
  ret : Option GoError
deriving DecidableEq

/-- Embedding of `populateTSDataIntoSiteWise` (tsalign.go): run the fetch
retry loop (each call is `GetTimeSeriesByThing(thingID, from, to,
resolution)`); if the final fetch error is non-nil return it; otherwise run
the response loop with the fetch-error variable now known to be nil. -/
def populateTSDataIntoSiteWise {α : Type} (attempts : Nat → FetchAttempt α)
    (pushOutcome : Nat → Option GoError) (thingID : GoString)
    (propertiesToImport : List GoString) (propertiesToImportAliases : GoMap GoString)
    (resolution fromTime toTime : Int) :
    PopulateResult (GoString × Int × Int × Int) α :=
  let fl := fetchLoopGo attempts 0 retryCount
  let calls := (List.range fl.1).map (fun _ => (thingID, fromTime, toTime, resolution))
  match fl.2.err with
  | some e => ⟨calls, [], some e⟩
  | none =>
    let lp := responsesLoop pushOutcome none propertiesToImport propertiesToImportAliases
      fl.2.responses 0
    ⟨calls, lp.pushes, lp.ret⟩

/-- Embedding of `populateCharTSDataIntoSiteWise` (tsalign.go): identical
control flow; each fetch call is `GetTimeSeriesSampling(propertiesToImport,
from, to, int32(resolution))` (the resolutions in use fit in 32 bits, so the
cast is the identity here). -/
def populateCharTSDataIntoSiteWise {α : Type} (attempts : Nat → FetchAttempt α)
    (pushOutcome : Nat → Option GoError)
    (propertiesToImport : List GoString) (propertiesToImportAliases : GoMap GoString)
    (resolution fromTime toTime : Int) :
    PopulateResult (List GoString × Int × Int × Int) α :=
  let fl := fetchLoopGo attempts 0 retryCount
  let calls := (List.range fl.1).map (fun _ => (propertiesToImport, fromTime, toTime, resolution))
  match fl.2.err with
  | some e => ⟨calls, [], some e⟩
  | none =>
    let lp := responsesLoop pushOutcome none propertiesToImport propertiesToImportAliases
      fl.2.responses 0
    ⟨calls, lp.pushes, lp.ret⟩

/-- Embedding of `PropertyAlias` (entityalign/align.go). -/
def PropertyAlias (thingId propertyName : GoString) : GoString :=
  str "/" ++ thingId ++ str "/" ++ propertyName

/-- Embedding of `mapPropertiesToImport` (tsalign.go): intersect the
described asset's property names with the thing's properties by name;
string-typed properties go to the sampled ("char") bucket, all others to the
primary bucket; every matched property id is mapped to its alias.
`isPropertyString` stands for `iot.IsPropertyString`, whose definition is
not part of the embedded sources; it is kept abstract because no claim
depends on the split itself. -/
def mapPropertiesToImport (isPropertyString : GoString → Bool)
    (assetPropNames : List GoString) (thing : ArduinoThing) :
    List GoString × List GoString × GoMap GoString :=
  assetPropNames.foldl (fun acc propName =>
    thing.properties.foldl (fun acc2 tp =>
      if propName = tp.name then
        if isPropertyString tp.ptype then
          (acc2.1, acc2.2.1 ++ [tp.id], mapUpsert acc2.2.2 tp.id (PropertyAlias thing.id propName))
        else
          (acc2.1 ++ [tp.id], acc2.2.1, mapUpsert acc2.2.2 tp.id (PropertyAlias thing.id propName))
      else acc2) acc) ([], [], [])

/-- One asset summary returned by `ListAssets`. -/
structure AssetSummary where
  id : GoString
  name : GoString
  externalId : Option GoString
deriving DecidableEq, Repr

/-- Environment of one exporter run: the catalog listings (modeled as
succeeding — a listing error aborts the run with that error and is not
exercised by any claim) and each per-asset task's call outcomes, keyed by
the asset's thing id. -/
structure ExporterEnv (α : Type) where
  modelIds : List GoString
  assetPages : GoString → List (List AssetSummary)
  describeAsset : GoString → Option (List GoString)
  isPropertyString : GoString → Bool
  primaryFetch : GoString → Nat → FetchAttempt α
  primaryPush : GoString → Nat → Option GoError
  charFetch : GoString → Nat → FetchAttempt α
  charPush : GoString → Nat → Option GoError

/-- Record of one spawned per-asset export task: what ran and whether any of
its steps logged an error. Task errors are only logged by the goroutine —
they reach no channel and no caller. -/
structure ExportTaskRecord (α : Type) where
  assetId : GoString
  thingId : GoString
  describeFailed : Bool
  primary : Option (PopulateResult (GoString × Int × Int × Int) α)
  char : Option (PopulateResult (List GoString × Int × Int × Int) α)
  failed : Bool
deriving DecidableEq

/-- Embedding of the goroutine body spawned by
`AlignTimeSeriesSamplesIntoSiteWise` for one asset: describe the asset (a
failure logs and returns), build the import buckets, run the primary
populate when its bucket is non-empty (a non-nil result logs and returns,
skipping the char path), then the char populate when its bucket is
non-empty. -/
def exportTask {α : Type} (env : ExporterEnv α) (assetId ext : GoString)
    (thing : ArduinoThing) (resolution fromTime toTime : Int) : ExportTaskRecord α :=
  match env.describeAsset assetId with
  | none => ⟨assetId, ext, true, none, none, true⟩
  | some assetProps =>
    let m := mapPropertiesToImport env.isPropertyString assetProps thing
    if m.1.length > 0 then
      let pr := populateTSDataIntoSiteWise (env.primaryFetch ext) (env.primaryPush ext) ext
        m.1 m.2.2 resolution fromTime toTime
      if pr.ret.isSome then
        ⟨assetId, ext, false, some pr, none, true⟩
      else if m.2.1.length > 0 then
        let cr := populateCharTSDataIntoSiteWise (env.charFetch ext) (env.charPush ext)
          m.2.1 m.2.2 resolution fromTime toTime
        ⟨assetId, ext, false, some pr, some cr, cr.ret.isSome⟩
      else
        ⟨assetId, ext, false, some pr, none, false⟩
    else if m.2.1.length > 0 then
      let cr := populateCharTSDataIntoSiteWise (env.charFetch ext) (env.charPush ext)
        m.2.1 m.2.2 resolution fromTime toTime
      ⟨assetId, ext, false, none, some cr, cr.ret.isSome⟩
    else
      ⟨assetId, ext, false, none, none, false⟩

/-- Embedding of `AlignTimeSeriesSamplesIntoSiteWise` (tsalign.go): compute
the aligned window, walk every model's asset pages, and spawn one export
task per asset that carries an external id resolving in the things map.
After the join barrier (`wg.Wait()`) the function returns nil — task
outcomes are logged inside the goroutines and never surfaced. Returns the
spawned tasks' records and the function's return value. -/
def AlignTimeSeriesSamplesIntoSiteWise {α : Type} (env : ExporterEnv α)
    (timeWindowInMinutes : Int) (thingsMap : GoMap ArduinoThing) (resolution now : Int) :
    List (ExportTaskRecord α) × Option GoError :=
  let ft := computeTimeAlignment now resolution timeWindowInMinutes
  (env.modelIds.flatMap (fun mid =>
    (env.assetPages mid).flatMap (fun page =>
      page.filterMap (fun asset =>
        match asset.externalId with
        | none => none
        | some ext =>
          match mapFind thingsMap ext with
          | none => none
          | some thing =>
            some (exportTask env asset.id ext thing resolution ft.1 ft.2)))),
   none)

/-- Definition following the specification's words (the reference side of the
amended C3): the spec expects one export task for every asset listed under
any model that carries an external id resolving in the things map; which
tasks run must not depend on any task's outcome. Note this definition reads
only the catalog part of the environment. -/
def specExpectedExportTasks (modelIds : List GoString)
    (assetPages : GoString → List (List AssetSummary))
    (thingsMap : GoMap ArduinoThing) : List GoString :=
  modelIds.flatMap (fun mid =>
    (assetPages mid).flatMap (fun page =>
      page.filterMap (fun asset =>
        match asset.externalId with
        | none => none
        | some ext =>
          match mapFind thingsMap ext with
          | none => none
          | some _ => some asset.id)))

theorem pushChunksLoop_early {α : Type} (pushOutcome : Nat → Option GoError)
    (errVar : Option GoError) (aliasName : GoString) (cs : List (chunk α)) (k : Nat) (rv) :
    (pushChunksLoop pushOutcome errVar aliasName cs k).earlyReturn = some rv → rv = errVar := by
  induction cs generalizing k with
  | nil => intro h; cases h
  | cons c cs ih =>
    intro h
    unfold pushChunksLoop at h
    cases hpo : pushOutcome k with
    | some e =>
      rw [hpo] at h
      dsimp only at h
      injection h with h2
      exact h2.symm
    | none =>
      rw [hpo] at h
      dsimp only at h
      exact ih (k + 1) h

theorem responsesLoop_ret_none {α : Type} (pushOutcome : Nat → Option GoError)
    (props : List GoString) (aliases : GoMap GoString)
    (rs : List (SeriesResponse α)) (k : Nat) :
    (responsesLoop pushOutcome none props aliases rs k).ret = none := by
  induction rs generalizing k with
  | nil => rfl
  | cons r rs ih =>
    simp only [responsesLoop]
    split
    · exact ih k
    · split
      · exact ih k
      · split
        · exact ih k
        · split
          · next rv hsome =>
            exact pushChunksLoop_early _ _ _ _ _ _ hsome
          · exact ih _

/-- C10 (implicit behavior). In the exporter's per-property push loop, when
the windowed fetch succeeds (its final error is nil) but some chunk push
returns a non-nil error, both `populateTSDataIntoSiteWise` and
`populateCharTSDataIntoSiteWise` execute `return err` with the NIL fetch
error rather than the push error: the function's result is nil and the push
failure is not propagated to any caller. -/
theorem populate_push_error_not_propagated {α : Type} (attempts : Nat → FetchAttempt α)
    (pushOutcome : Nat → Option GoError) (thingID : GoString)
    (props : List GoString) (aliases : GoMap GoString) (resolution fromTime toTime : Int)
    (hfetch : (fetchLoopGo attempts 0 retryCount).2.err = none)
    (_hfail : ((populateTSDataIntoSiteWise attempts pushOutcome thingID props aliases resolution
        fromTime toTime).pushes.any (fun c => c.outcome.isSome)) = true ∨
      ((populateCharTSDataIntoSiteWise attempts pushOutcome props aliases resolution
        fromTime toTime).pushes.any (fun c => c.outcome.isSome)) = true) :
    (populateTSDataIntoSiteWise attempts pushOutcome thingID props aliases resolution
      fromTime toTime).ret = none ∧
    (populateCharTSDataIntoSiteWise attempts pushOutcome props aliases resolution
      fromTime toTime).ret = none := by
  constructor
  · simp only [populateTSDataIntoSiteWise]
    rw [hfetch]
    exact responsesLoop_ret_none pushOutcome props aliases _ 0
  · simp only [populateCharTSDataIntoSiteWise]
    rw [hfetch]
    exact responsesLoop_ret_none pushOutcome props aliases _ 0

/-- Fetch attempts used by the C10 witness: one successful attempt carrying
a single-sample response for property p1. -/
def pushFailAttempts : Nat → FetchAttempt Int :=
  fun _ => ⟨[⟨str "property.p1", 1, [5], [7]⟩], false, none⟩

/-- Push outcomes used by the C10 witness: every push fails. -/
def pushFailOutcome : Nat → Option GoError := fun _ => some (str "pushfail")

/-- C10 witness: a concrete run in which the fetch succeeds, the single push
fails, and the function still returns nil. -/
theorem populate_push_error_not_propagated_witness :
    (populateTSDataIntoSiteWise pushFailAttempts pushFailOutcome (str "t1") [str "p1"]
      [(str "p1", str "/t1/p1")] 300 0 300).ret = none :=
  (populate_push_error_not_propagated pushFailAttempts pushFailOutcome (str "t1") [str "p1"]
    [(str "p1", str "/t1/p1")] 300 0 300 (by decide) (Or.inl (by decide))).1

/-- C6. Chunking: for parallel arrays of length `n` the partition has
`ceil(n/10)` chunks; every chunk has at most ten timestamps and equally many
values; all chunks before the last have exactly ten; concatenating the
chunks' timestamp (resp. value) slices in order reconstructs the original
arrays exactly; a 35-point response yields chunk sizes `[10,10,10,5]`; and a
response with zero reported samples is skipped entirely by the push loop (it
contributes no push call). -/
theorem partitionResults_spec {α : Type} (ts : List Int) (vs : List α)
    (h : ts.length = vs.length) :
    (partitionResults ts vs).length = (ts.length + 9) / 10 ∧
    (∀ c ∈ partitionResults ts vs, c.ts.length ≤ 10 ∧ c.values.length = c.ts.length) ∧
    (∀ c ∈ (partitionResults ts vs).dropLast, c.ts.length = 10) ∧
    ((partitionResults ts vs).map (fun c => c.ts)).flatten = ts ∧
    ((partitionResults ts vs).map (fun c => c.values)).flatten = vs ∧
    (partitionResults ((List.range 35).map (fun n => (n : Int))) (List.range 35)).map
      (fun c => c.ts.length) = [10, 10, 10, 5] ∧
    (∀ (pushOutcome : Nat → Option GoError) (errVar : Option GoError)
      (props : List GoString) (aliases : GoMap GoString)
      (r : SeriesResponse α) (rs : List (SeriesResponse α)) (k : Nat),
      r.countValues = 0 →
      responsesLoop pushOutcome errVar props aliases (r :: rs) k =
        responsesLoop pushOutcome errVar props aliases rs k) := by
  refine ⟨partitionResults_length ts vs, partitionResults_chunk_sizes ts vs h,
    partitionResults_dropLast_full ts vs,
    partitionResults_flatten_ts ts vs (le_of_eq h),
    partitionResults_flatten_values ts vs h, by decide, ?_⟩
  intro pushOutcome errVar props aliases r rs k hz
  have hz2 : (r.countValues == 0) = true := by simp [hz]
  conv_lhs => rw [responsesLoop]
  rw [if_pos hz2]

/-- C6 witness: the chunking theorem applied to the 35-point arrays. -/
theorem partitionResults_spec_witness :
    (partitionResults ((List.range 35).map (fun n => (n : Int))) (List.range 35)).length =
      (((List.range 35).map (fun n => (n : Int))).length + 9) / 10 :=
  (partitionResults_spec ((List.range 35).map (fun n => (n : Int))) (List.range 35)
    (by decide)).1

theorem exportTask_ids {α : Type} (env : ExporterEnv α) (aid ext : GoString)
    (thing : ArduinoThing) (resolution fromTime toTime : Int) :
    (exportTask env aid ext thing resolution fromTime toTime).assetId = aid ∧
    (exportTask env aid ext thing resolution fromTime toTime).thingId = ext := by
  unfold exportTask
  split
  · exact ⟨rfl, rfl⟩
  · dsimp only
    split
    · split
      · exact ⟨rfl, rfl⟩
      · split
        · exact ⟨rfl, rfl⟩
        · exact ⟨rfl, rfl⟩
    · split
      · exact ⟨rfl, rfl⟩
      · exact ⟨rfl, rfl⟩

theorem exportTask_primary {α : Type} (env : ExporterEnv α) (aid ext : GoString)
    (thing : ArduinoThing) (resolution fromTime toTime : Int)
    (pr : PopulateResult (GoString × Int × Int × Int) α) :
    (exportTask env aid ext thing resolution fromTime toTime).primary = some pr →
    ∃ props aliases, pr = populateTSDataIntoSiteWise (env.primaryFetch ext) (env.primaryPush ext)
      ext props aliases resolution fromTime toTime := by
  unfold exportTask
  split
  · intro hcontra; cases hcontra
  · dsimp only
    split
    · split
      · intro hpr
        injection hpr with h2
        exact ⟨_, _, h2.symm⟩
      · split
        · intro hpr
          injection hpr with h2
          exact ⟨_, _, h2.symm⟩
        · intro hpr
          injection hpr with h2
          exact ⟨_, _, h2.symm⟩
    · split
      · intro hcontra; cases hcontra
      · intro hcontra; cases hcontra

theorem populateTS_fetchCalls_all {α : Type} (attempts : Nat → FetchAttempt α)
    (pushOutcome : Nat → Option GoError) (thingID : GoString)
    (props : List GoString) (aliases : GoMap GoString) (resolution fromTime toTime : Int) :
    ((populateTSDataIntoSiteWise attempts pushOutcome thingID props aliases resolution
      fromTime toTime).fetchCalls).all
        (fun c => c == (thingID, fromTime, toTime, resolution)) = true := by
  simp only [populateTSDataIntoSiteWise]
  rcases (fetchLoopGo attempts 0 retryCount).2.err with _ | e <;>
    · dsimp only
      rw [List.all_eq_true]
      intro c hc
      rw [List.mem_map] at hc
      obtain ⟨i, _, hi⟩ := hc
      simp [← hi]

/-- C3 (amended). Exporter join barrier: per-asset export tasks run
independently — the set of spawned tasks is exactly the catalog-determined
set `specExpectedExportTasks`, which does not depend on any task's outcome,
so one asset's failure cannot cancel or block another's task — but, contrary
to the original claim, the per-task errors are only logged inside the
goroutines and are NOT returned: after the join barrier the exporter's
result is nil on every run, failures included. -/
theorem alignTimeSeries_task_errors_not_returned {α : Type} (env : ExporterEnv α)
    (timeWindowInMinutes : Int) (thingsMap : GoMap ArduinoThing) (resolution now : Int) :
    (AlignTimeSeriesSamplesIntoSiteWise env timeWindowInMinutes thingsMap resolution now).2 =
      none ∧
    (AlignTimeSeriesSamplesIntoSiteWise env timeWindowInMinutes thingsMap resolution now).1.map
        (fun t => t.assetId) =
      specExpectedExportTasks env.modelIds env.assetPages thingsMap := by
  refine ⟨rfl, ?_⟩
  unfold AlignTimeSeriesSamplesIntoSiteWise specExpectedExportTasks
  dsimp only
  rw [List.map_flatMap]
  refine congrArg (List.flatMap env.modelIds) ?_
  funext mid
  rw [List.map_flatMap]
  refine congrArg (List.flatMap (env.assetPages mid)) ?_
  funext page
  rw [List.map_filterMap]
  have : (fun asset : AssetSummary => Option.map (fun t : ExportTaskRecord α => t.assetId)
      (match asset.externalId with
        | none => none
        | some ext =>
          match mapFind thingsMap ext with
          | none => none
          | some thing =>
            some (exportTask env asset.id ext thing resolution
              (computeTimeAlignment now resolution timeWindowInMinutes).1
              (computeTimeAlignment now resolution timeWindowInMinutes).2))) =
      (fun asset : AssetSummary =>
        match asset.externalId with
        | none => none
        | some ext =>
          match mapFind thingsMap ext with
          | none => none
          | some _ => some asset.id) := by
    funext asset
    cases hext : asset.externalId with
    | none => rfl
    | some ext =>
      cases hfind : mapFind thingsMap ext with
      | none =>
        dsimp only
        rw [hfind]
        rfl
      | some thing =>
        dsimp only
        rw [hfind]
        dsimp only [Option.map]
        rw [(exportTask_ids env asset.id ext thing resolution
          (computeTimeAlignment now resolution timeWindowInMinutes).1
          (computeTimeAlignment now resolution timeWindowInMinutes).2).1]
  rw [this]

/-- Exporter environment for the C3 counterexample: one model, one asset
bound to thing t1, whose describe call fails, making its export task fail. -/
def failingExportEnv : ExporterEnv Int :=
  { modelIds := [str "m1"],
    assetPages := fun mid =>
      if mid = str "m1" then [[⟨str "a1", str "asset1", some (str "t1")⟩]] else [],
    describeAsset := fun _ => none,
    isPropertyString := fun _ => false,
    primaryFetch := fun _ _ => ⟨[], false, none⟩,
    primaryPush := fun _ _ => none,
    charFetch := fun _ _ => ⟨[], false, none⟩,
    charPush := fun _ _ => none }

/-- Thing t1 of the C3 counterexample run. -/
def exportThing : ArduinoThing := { id := str "t1", name := str "thing1", properties := [] }

/-- C3 counterexample: a run in which a per-asset export task fails (its
DescribeAsset call errors) yet the exporter's result is nil — the claim's
"full set of per-task errors is returned ... non-empty/non-nil result" is
false on the code. -/
theorem alignTimeSeries_failed_task_counterexample :
    ((AlignTimeSeriesSamplesIntoSiteWise failingExportEnv 60 [(str "t1", exportThing)] 300
      1000).1.any (fun t => t.failed)) = true ∧
    (AlignTimeSeriesSamplesIntoSiteWise failingExportEnv 60 [(str "t1", exportThing)] 300
      1000).2 = none := by
  decide

/-- The resolution after forcing (`resolutionSeconds = 300` when at most
60): the reassigned `resolutionSeconds` local of `computeTimeAlignment`. -/
def forcedResolution (resolutionSeconds : Int) : Int :=
  if resolutionSeconds ≤ 60 then 300 else resolutionSeconds

/-- The truncation `time.Now().Truncate(resolution)` of
`computeTimeAlignment`, in seconds. -/
def truncatedNow (now resolutionSeconds : Int) : Int :=
  now - now % forcedResolution resolutionSeconds

/-- C5. Time-window alignment: a resolution of at most 60s is replaced by
300s; `to` is the current time truncated down to a multiple of the
(replaced) resolution — the truncation divides evenly, does not exceed
`now`, and falls short of it by less than one resolution — additionally
shifted back exactly 300s when the resolution is at most 900s; `from` is
`to` minus the window in minutes; and in an exporter run with resolution
300 and window 60 every windowed fetch of every task is invoked with
exactly this `[from, to]` pair and interval 300. -/
theorem computeTimeAlignment_spec (now resolutionSeconds timeWindowInMinutes : Int) :
    forcedResolution resolutionSeconds ∣ truncatedNow now resolutionSeconds ∧
    truncatedNow now resolutionSeconds ≤ now ∧
    now < truncatedNow now resolutionSeconds + forcedResolution resolutionSeconds ∧
    (computeTimeAlignment now resolutionSeconds timeWindowInMinutes).2 =
      (if forcedResolution resolutionSeconds ≤ 900 then
        truncatedNow now resolutionSeconds - 300
      else
        truncatedNow now resolutionSeconds) ∧
    (computeTimeAlignment now resolutionSeconds timeWindowInMinutes).1 =
      (computeTimeAlignment now resolutionSeconds timeWindowInMinutes).2 -
        timeWindowInMinutes * 60 ∧
    (∀ {α : Type} (env : ExporterEnv α) (thingsMap : GoMap ArduinoThing)
      (t : ExportTaskRecord α) (pr : PopulateResult (GoString × Int × Int × Int) α),
      t ∈ (AlignTimeSeriesSamplesIntoSiteWise env 60 thingsMap 300 now).1 →
      t.primary = some pr →
      pr.fetchCalls.all (fun c => c == (t.thingId, (computeTimeAlignment now 300 60).1,
        (computeTimeAlignment now 300 60).2, (300 : Int))) = true) := by
  have hrespos : 0 < forcedResolution resolutionSeconds := by
    unfold forcedResolution
    split
    · norm_num
    · next hgt => omega
  have hdm := Int.ediv_add_emod now (forcedResolution resolutionSeconds)
  refine ⟨⟨now / forcedResolution resolutionSeconds, by unfold truncatedNow; linarith⟩,
    ?_, ?_, rfl, rfl, ?_⟩
  · have := Int.emod_nonneg now (ne_of_gt hrespos)
    unfold truncatedNow
    omega
  · have := Int.emod_lt_of_pos now hrespos
    unfold truncatedNow
    omega
  · intro α env thingsMap t pr hmem hpr
    unfold AlignTimeSeriesSamplesIntoSiteWise at hmem
    dsimp only at hmem
    rw [List.mem_flatMap] at hmem
    obtain ⟨mid, _, hmem⟩ := hmem
    rw [List.mem_flatMap] at hmem
    obtain ⟨page, _, hmem⟩ := hmem
    rw [List.mem_filterMap] at hmem
    obtain ⟨asset, _, hasset⟩ := hmem
    cases hext : asset.externalId with
    | none => rw [hext] at hasset; cases hasset
    | some ext =>
      rw [hext] at hasset
      dsimp only at hasset
      cases hfind : mapFind thingsMap ext with
      | none => rw [hfind] at hasset; cases hasset
      | some thing =>
        rw [hfind] at hasset
        dsimp only at hasset
        injection hasset with hteq
        subst hteq
        obtain ⟨props2, aliases2, hpr2⟩ := exportTask_primary env asset.id ext thing 300
          (computeTimeAlignment now 300 60).1 (computeTimeAlignment now 300 60).2 pr hpr
        rw [hpr2, (exportTask_ids env asset.id ext thing 300
          (computeTimeAlignment now 300 60).1 (computeTimeAlignment now 300 60).2).2]
        exact populateTS_fetchCalls_all (env.primaryFetch ext) (env.primaryPush ext) ext
          props2 aliases2 300 (computeTimeAlignment now 300 60).1
          (computeTimeAlignment now 300 60).2

/-- C5 witness: the window theorem applied at a concrete clock reading with
resolution 300 and window 60. -/
theorem computeTimeAlignment_spec_witness :
    computeTimeAlignment 1714916982 300 60 = (1714912800, 1714916400) := by
  have h := computeTimeAlignment_spec 1714916982 300 60
  have h2 := h.2.2.2
  have h3 : (computeTimeAlignment 1714916982 300 60).2 = 1714916400 := by
    rw [h2.1]
    decide
  have h4 : (computeTimeAlignment 1714916982 300 60).1 = 1714912800 := by
    rw [h2.2.1, h3]
    decide
  calc computeTimeAlignment 1714916982 300 60
      = ((computeTimeAlignment 1714916982 300 60).1,
         (computeTimeAlignment 1714916982 300 60).2) := rfl
    _ = (1714912800, 1714916400) := by rw [h3, h4]

/-- Runtime value of a data point (Go `any`), as the closed union of cases
`PopulateArbitrarySamplesByAlias` distinguishes. Floating-point payloads are
opaque (`φ`): no embedded code computes with them; Go's `int`, `int32` and
`int64` cases collapse into `vInt` (all are cast to `int32`); a map value
carries its already-encoded string form. -/
inductive GoValue (φ : Type) where
  | vBool (b : Bool)
  | vString (s : GoString)
  | vInt (n : Int)
  | vFloat (f : φ)
  | vMap (encoded : GoString)
  | unsupported
deriving DecidableEq

/-- Go's `int32(v)` conversion: signed 32-bit wrap-around. -/
def toInt32 (v : Int) : Int := (v + 2 ^ 31) % 2 ^ 32 - 2 ^ 31

/-- The AWS `Variant` written for one entry: a double from a bool (0.0/1.0),
an opaque double, a 32-bit integer, or a string. -/
inductive Variant (φ : Type) where
  | doubleFromBool (b : Bool)
  | doubleValue (f : φ)
  | integerValue (n : Int)
  | stringValue (s : GoString)
deriving DecidableEq

/-- Embedding of `DataPoint` (sitewiseclient/client.go). -/
structure DataPoint (φ : Type) where
  propertyAlias : GoString
  ts : Int
  value : GoValue φ
deriving DecidableEq

/-- One `PutAssetPropertyValueEntry` as built by
`PopulateArbitrarySamplesByAlias` (entry ids are positional and cosmetic;
they are not represented). -/
structure BatchEntry (φ : Type) where
  propertyAlias : GoString
  ts : Int
  variant : Variant φ
deriving DecidableEq

/-- Embedding of the value switch of `PopulateArbitrarySamplesByAlias`
(sitewiseclient/client.go): bools become doubles 0.0/1.0, strings stay
strings, integer widths are cast to int32, floats stay doubles, maps are
pushed in encoded string form, anything else is skipped (`continue`). -/
def toEntry {φ : Type} (p : DataPoint φ) : Option (BatchEntry φ) :=
  match p.value with
  | .vBool b => some ⟨p.propertyAlias, p.ts, .doubleFromBool b⟩
  | .vString s => some ⟨p.propertyAlias, p.ts, .stringValue s⟩
  | .vInt n => some ⟨p.propertyAlias, p.ts, .integerValue (toInt32 n)⟩
  | .vFloat f => some ⟨p.propertyAlias, p.ts, .doubleValue f⟩
  | .vMap enc => some ⟨p.propertyAlias, p.ts, .stringValue enc⟩
  | .unsupported => none

/-- Embedding of the accumulate-and-flush batching of
`PopulateArbitrarySamplesByAlias` (sitewiseclient/client.go): convert each
point (skipping unsupported values); when the buffer reaches 10 entries,
issue a `BatchPutAssetPropertyValue` call and reset it; a non-empty
remainder is sent at the end. Returns the entry list of each batch call, in
order. -/
def PopulateArbitrarySamplesByAlias {φ : Type} :
    List (DataPoint φ) → List (BatchEntry φ) → List (List (BatchEntry φ))
  | [], data => if data.length > 0 then [data] else []
  | p :: ps, data =>
    match toEntry p with
    | none => PopulateArbitrarySamplesByAlias ps data
    | some e =>
      if (data ++ [e]).length == 10 then
        (data ++ [e]) :: PopulateArbitrarySamplesByAlias ps []
      else
        PopulateArbitrarySamplesByAlias ps (data ++ [e])

/-- Value-kind tag of a mapped property, as the specification
distinguishes them. -/
inductive PropertyValueKind where
  | numeric
  | boolean
  | stringKind
  | location
  | other
deriving DecidableEq

/-- Modelled from the spec: the supported value kinds for the last-value
fallback, "string/numeric/boolean/location"; anything else is skipped. The
iot type predicates this classification would come from are not part of the
embedded sources. -/
def isSupportedValueKind : PropertyValueKind → Bool
  | .numeric => true
  | .boolean => true
  | .stringKind => true
  | .location => true
  | .other => false

/-- A mapped property as the last-value fallback pass sees it: its id, the
alias its samples are pushed under, its on-change flag, its value kind, and
the thing's cached last-known value, if any. -/
structure MappedProperty (φ : Type) where
  id : GoString
  propertyAlias : GoString
  onChange : Bool
  kind : PropertyValueKind
  lastValue : Option (GoValue φ)
deriving DecidableEq

/-- Modelled from the spec: the exporter's last-value fallback pass, whose
caller is not present under the embedded sources (only its push primitive
`PopulateArbitrarySamplesByAlias` is): "after both fetches, for every
property that produced no samples in the window this cycle, check the
Thing's cached last-known value; if the property's update-strategy is
'on-change' and its type is one of the supported value kinds
(string/numeric/boolean/location), push a single synthetic DataPoint
stamped with the current time and that last value, batched similarly".
`sampledIds` lists the property ids that produced samples this cycle. -/
def lastValueFallbackPoints {φ : Type} (now : Int) (props : List (MappedProperty φ))
    (sampledIds : List GoString) : List (DataPoint φ) :=
  props.filterMap (fun p =>
    if p.id ∈ sampledIds then none
    else
      match p.lastValue with
      | none => none
      | some v =>
        if p.onChange && isSupportedValueKind p.kind then
          some ⟨p.propertyAlias, now, v⟩
        else
          none)

theorem lastValueFallbackPoints_alias_mem {φ : Type} (now : Int)
    (props : List (MappedProperty φ)) (sampledIds : List GoString) (pt : DataPoint φ)
    (h : pt ∈ lastValueFallbackPoints now props sampledIds) :
    pt.propertyAlias ∈ props.map (fun q => q.propertyAlias) := by
  unfold lastValueFallbackPoints at h
  rw [List.mem_filterMap] at h
  obtain ⟨q, hq, hqe⟩ := h
  rw [List.mem_map]
  refine ⟨q, hq, ?_⟩
  by_cases hs : q.id ∈ sampledIds
  · rw [if_pos hs] at hqe; cases hqe
  · rw [if_neg hs] at hqe
    cases hlv : q.lastValue with
    | none => rw [hlv] at hqe; cases hqe
    | some v =>
      rw [hlv] at hqe
      dsimp only at hqe
      split at hqe
      · injection hqe with h2
        rw [← h2]
      · cases hqe

theorem PopulateArbitrary_flatten {φ : Type} (pts : List (DataPoint φ))
    (data : List (BatchEntry φ)) :
    (PopulateArbitrarySamplesByAlias pts data).flatten = data ++ pts.filterMap toEntry := by
  induction pts generalizing data with
  | nil =>
    unfold PopulateArbitrarySamplesByAlias
    split
    · simp
    · next hlen =>
      have : data = [] := by
        cases data with
        | nil => rfl
        | cons d ds => simp at hlen
      rw [this]
      rfl
  | cons p ps ih =>
    unfold PopulateArbitrarySamplesByAlias
    cases hpe : toEntry p with
    | none =>
      dsimp only
      rw [ih data, List.filterMap_cons, hpe]
    | some e =>
      dsimp only
      split
      · rw [List.flatten_cons, ih [], List.filterMap_cons, hpe]
        simp
      · rw [ih (data ++ [e]), List.filterMap_cons, hpe]
        simp

theorem toEntry_alias {φ : Type} (q : DataPoint φ) (e : BatchEntry φ)
    (h : toEntry q = some e) : e.propertyAlias = q.propertyAlias := by
  unfold toEntry at h
  cases hv : q.value with
  | vBool b => rw [hv] at h; injection h with h2; subst h2; rfl
  | vString s => rw [hv] at h; injection h with h2; subst h2; rfl
  | vInt n => rw [hv] at h; injection h with h2; subst h2; rfl
  | vFloat f => rw [hv] at h; injection h with h2; subst h2; rfl
  | vMap enc => rw [hv] at h; injection h with h2; subst h2; rfl
  | unsupported => rw [hv] at h; cases h

theorem filter_alias_filterMap {φ : Type} (a : GoString) (l : List (DataPoint φ)) :
    (l.filterMap toEntry).filter (fun e => e.propertyAlias == a) =
      (l.filter (fun q => q.propertyAlias == a)).filterMap toEntry := by
  induction l with
  | nil => rfl
  | cons q qs ih =>
    rw [List.filterMap_cons, List.filter_cons]
    by_cases halias : (q.propertyAlias == a) = true
    · rw [if_pos halias, List.filterMap_cons]
      cases hqe : toEntry q with
      | none => exact ih
      | some e =>
        have he : e.propertyAlias = q.propertyAlias := toEntry_alias q e hqe
        rw [List.filter_cons, if_pos (by rw [he]; exact halias), ih]
    · rw [if_neg halias]
      cases hqe : toEntry q with
      | none => exact ih
      | some e =>
        have he : e.propertyAlias = q.propertyAlias := toEntry_alias q e hqe
        rw [List.filter_cons, if_neg (by rw [he]; exact halias), ih]

theorem lastValueFallbackPoints_filter {φ : Type} (now : Int)
    (props : List (MappedProperty φ)) (sampledIds : List GoString)
    (p : MappedProperty φ) (v : GoValue φ)
    (hmem : p ∈ props)
    (hnodup : (props.map (fun q => q.propertyAlias)).Nodup)
    (hnosample : p.id ∉ sampledIds)
    (hlast : p.lastValue = some v)
    (honchange : p.onChange = true)
    (hkind : isSupportedValueKind p.kind = true) :
    (lastValueFallbackPoints now props sampledIds).filter
      (fun q => q.propertyAlias == p.propertyAlias) =
      [⟨p.propertyAlias, now, v⟩] := by
  induction props with
  | nil => cases hmem
  | cons q qs ih =>
    rw [List.map_cons, List.nodup_cons] at hnodup
    rcases List.mem_cons.mp hmem with rfl | hmem2
    · have hq : lastValueFallbackPoints now (p :: qs) sampledIds =
          (⟨p.propertyAlias, now, v⟩ : DataPoint φ) ::
            lastValueFallbackPoints now qs sampledIds := by
        unfold lastValueFallbackPoints
        rw [List.filterMap_cons]
        rw [if_neg hnosample, hlast]
        dsimp only
        rw [if_pos (by rw [honchange, hkind]; rfl)]
      rw [hq, List.filter_cons, if_pos (by simp)]
      have hrest : (lastValueFallbackPoints now qs sampledIds).filter
          (fun q => q.propertyAlias == p.propertyAlias) = [] := by
        rw [List.filter_eq_nil_iff]
        intro pt hpt hcontra
        have := lastValueFallbackPoints_alias_mem now qs sampledIds pt hpt
        rw [eq_of_beq hcontra] at this
        exact hnodup.1 this
      rw [hrest]
    · have hqp : (q.propertyAlias == p.propertyAlias) = false := by
        rw [beq_eq_false_iff_ne]
        intro hcontra
        apply hnodup.1
        rw [hcontra, List.mem_map]
        exact ⟨p, hmem2, rfl⟩
      have hih := ih hmem2 hnodup.2
      unfold lastValueFallbackPoints
      rw [List.filterMap_cons]
      rcases hhead : (if q.id ∈ sampledIds then none
        else
          match q.lastValue with
          | none => none
          | some v =>
            if q.onChange && isSupportedValueKind q.kind then
              some (⟨q.propertyAlias, now, v⟩ : DataPoint φ)
            else
              none) with _ | pt
      · exact hih
      · have hpt : pt.propertyAlias = q.propertyAlias := by
          by_cases hs : q.id ∈ sampledIds
          · rw [if_pos hs] at hhead; cases hhead
          · rw [if_neg hs] at hhead
            cases hlv : q.lastValue with
            | none => rw [hlv] at hhead; cases hhead
            | some w =>
              rw [hlv] at hhead
              dsimp only at hhead
              split at hhead
              · injection hhead with h2
                rw [← h2]
              · cases hhead
        rw [List.filter_cons, if_neg (by rw [hpt]; simp [hqp])]
        exact hih

/-- C4 (spec-modelled). Last-value fallback: for every mapped property that
produced no samples in the window, if the thing's cached last value exists,
the property's update-strategy is on-change and its kind is a supported
value kind, then (with pairwise distinct aliases) EXACTLY ONE synthetic
DataPoint is produced for the property's alias, stamped with the current
time and carrying the cached value — and pushing the fallback points through
`PopulateArbitrarySamplesByAlias` puts exactly that point's entry on the
wire for the alias (provided the cached value is of a representable runtime
type). -/
theorem lastValueFallback_single_point {φ : Type} (now : Int)
    (props : List (MappedProperty φ)) (sampledIds : List GoString)
    (p : MappedProperty φ) (v : GoValue φ)
    (hmem : p ∈ props)
    (hnodup : (props.map (fun q => q.propertyAlias)).Nodup)
    (hnosample : p.id ∉ sampledIds)
    (hlast : p.lastValue = some v)
    (honchange : p.onChange = true)
    (hkind : isSupportedValueKind p.kind = true)
    (hrep : v ≠ GoValue.unsupported) :
    (lastValueFallbackPoints now props sampledIds).filter
      (fun q => q.propertyAlias == p.propertyAlias) =
      [⟨p.propertyAlias, now, v⟩] ∧
    ((PopulateArbitrarySamplesByAlias
        (lastValueFallbackPoints now props sampledIds) []).flatten).filter
      (fun e => e.propertyAlias == p.propertyAlias) =
      (toEntry (⟨p.propertyAlias, now, v⟩ : DataPoint φ)).toList := by
  have hfilter := lastValueFallbackPoints_filter now props sampledIds p v hmem hnodup
    hnosample hlast honchange hkind
  refine ⟨hfilter, ?_⟩
  rw [PopulateArbitrary_flatten, List.nil_append, filter_alias_filterMap, hfilter,
    List.filterMap_cons]
  cases v with
  | unsupported => exact absurd rfl hrep
  | vBool b => rfl
  | vString s => rfl
  | vInt n => rfl
  | vFloat f => rfl
  | vMap enc => rfl

/-- Mapped property used by the C4 witness: on-change, numeric, cached
value 42. -/
def fallbackWitnessProp : MappedProperty Unit :=
  ⟨str "p1", str "/t1/temp", true, PropertyValueKind.numeric, some (GoValue.vInt 42)⟩

/-- C4 witness: the fallback theorem applied to a concrete on-change numeric
property p1 with cached value 42 that produced no samples. -/
theorem lastValueFallback_single_point_witness :
    (lastValueFallbackPoints 999 [fallbackWitnessProp] []).filter
      (fun q => q.propertyAlias == str "/t1/temp") =
      [⟨str "/t1/temp", 999, GoValue.vInt 42⟩] :=
  (lastValueFallback_single_point 999 [fallbackWitnessProp] [] fallbackWitnessProp
    (GoValue.vInt 42) (by decide) (by decide) (by decide) (by decide) (by decide) (by decide)
    (by decide)).1

end SiteWise
